import Mathlib

/-!
# Verification of the voxel-world chunk lifecycle manager (`World`)

A shallow embedding of the `World` class (camera-chunk tracking, spherical
region fill, readiness sweep, bounded work-queue drain, voxel edits with
boundary propagation, and generation requests), together with theorems
settling the specification's claims about it.

The `World` class itself is embedded directly from the source.  The `Chunk`
class and the `Helper` coordinate conversions live outside the provided
source tree; those are modelled from the specification, as marked in their
doc comments.
-/

set_option autoImplicit false

namespace MineJs

/-- Integer coordinates `(x, y, z)`, used both for chunk-grid positions and
for voxel positions (the source's `Coords3`). -/
structure Coords3 where
  x : Int
  y : Int
  z : Int
deriving DecidableEq, Repr

/-- The `World` options record (`WorldOptionsType`): chunk size, ghost-margin
padding, world scale, render radius in chunks, and the per-tick work bound. -/
structure WorldOptions where
  chunkSize : Nat
  chunkPadding : Nat
  dimension : Nat
  renderRadius : Nat
  maxChunkPerFrame : Nat
deriving DecidableEq, Repr

/-- The source's `defaultWorldOptions`. -/
def defaultWorldOptions : WorldOptions :=
  { chunkSize := 32, chunkPadding := 2, dimension := 1, renderRadius := 3, maxChunkPerFrame := 1 }

/-- Modelled from the spec: the `Chunk` leaf entity (its class is not in the
provided source).  It owns its grid coordinates, the size/padding/dimension
configuration, a voxel write log keyed by world voxel coordinates (covering
the padded ghost region `[-padding, size+padding)³` in local coordinates),
and the lifecycle flags. -/
structure Chunk where
  coords : Coords3
  size : Nat
  padding : Nat
  dimension : Nat
  voxels : List (Coords3 × Nat)
  isInitialized : Bool
  isPending : Bool
  isDirty : Bool
  isMeshing : Bool
  isAdded : Bool
  isEmpty : Bool
deriving DecidableEq, Repr

/-- Modelled from the spec: a freshly constructed chunk "always starts dirty
and uninitialized", with the current size/dimension/padding configuration. -/
def Chunk.make (coords : Coords3) (size dimension padding : Nat) : Chunk :=
  { coords := coords, size := size, padding := padding, dimension := dimension,
    voxels := [], isInitialized := false, isPending := false, isDirty := true,
    isMeshing := false, isAdded := false, isEmpty := true }

/-- Modelled from the spec: whether a world voxel coordinate falls inside this
chunk's padded ghost region `[-padding, size+padding)³` in local coordinates. -/
def Chunk.inPaddedRange (c : Chunk) (v : Coords3) : Bool :=
  let s : Int := c.size
  let p : Int := c.padding
  let lx := v.x - c.coords.x * s
  let ly := v.y - c.coords.y * s
  let lz := v.z - c.coords.z * s
  decide (-p ≤ lx ∧ lx < s + p ∧ -p ≤ ly ∧ ly < s + p ∧ -p ≤ lz ∧ lz < s + p)

/-- Modelled from the spec: `Chunk#setVoxel` records the block type at a world
voxel coordinate when that coordinate is covered by the chunk's padded region
(otherwise the voxel storage cannot hold it and nothing is written); a written
chunk becomes dirty. -/
def Chunk.setVoxel (c : Chunk) (v : Coords3) (t : Nat) : Chunk :=
  if c.inPaddedRange v then
    { c with voxels := (v, t) :: c.voxels, isDirty := true }
  else c

/-- Modelled from the spec: `Chunk#getVoxel` reads the most recent write at a
world voxel coordinate (`none` when the coordinate was never written or is not
covered). -/
def Chunk.getVoxel (c : Chunk) (v : Coords3) : Option Nat :=
  (c.voxels.find? (fun p => p.1 == v)).map Prod.snd

/-- Modelled from the spec: `Helper.mapVoxelPosToChunkPos`, componentwise
floor-division of a voxel position by the chunk size (`Int` `/` is Euclidean
division, which is floor division for a positive divisor). -/
def mapVoxelPosToChunkPos (v : Coords3) (chunkSize : Nat) : Coords3 :=
  ⟨v.x / (chunkSize : Int), v.y / (chunkSize : Int), v.z / (chunkSize : Int)⟩

/-- Modelled from the spec: `Helper.mapVoxelPosToChunkLocalPos`, the
corresponding componentwise modulo, yielding local coordinates in
`[0, chunkSize)` for a positive chunk size. -/
def mapVoxelPosToChunkLocalPos (v : Coords3) (chunkSize : Nat) : Coords3 :=
  ⟨v.x % (chunkSize : Int), v.y % (chunkSize : Int), v.z % (chunkSize : Int)⟩

/-- Notifications emitted by the `World` (on the engine emitter) together with
the external side-effecting calls it issues; recorded as an event log.
`generateCalled` marks an invocation of the configured generator's
asynchronous `generate`, `sceneAdded` an `addToScene` call and
`meshBuildStarted` a `buildMesh` call on a chunk. -/
inductive WEvent where
  | chunkChanged (pos : Coords3)
  | dataNeeded (chunk : Coords3)
  | generateCalled (chunk : Coords3)
  | sceneAdded (chunk : Coords3)
  | meshBuildStarted (chunk : Coords3)
deriving DecidableEq, Repr

/-- The `World` state: options, whether a generator is configured (the
constructor's string switch leaves `generator` undefined for unknown kinds),
the name-keyed chunk store (the canonical name of a chunk is an injective
function of its grid coordinates, so the store is keyed by coordinates), the
`dirtyChunks` work queue, the camera-chunk tracking fields (`camChunkName` is
`none` before the first tick, modelling the initially-undefined field), and
the event log. -/
structure WorldState where
  opts : WorldOptions
  hasGenerator : Bool
  chunks : List (Coords3 × Chunk)
  dirtyChunks : List Coords3
  camChunkName : Option Coords3
  camChunkPos : Coords3
  events : List WEvent
deriving DecidableEq, Repr

/-- `getChunkByCPos` / `getChunkByName`: look a chunk up in the store. -/
def WorldState.getChunkByCPos (w : WorldState) (c : Coords3) : Option Chunk :=
  (w.chunks.find? (fun p => p.1 == c)).map Prod.snd

/-- Whether a chunk exists in the store at the given grid coordinates. -/
def WorldState.hasChunk (w : WorldState) (c : Coords3) : Bool :=
  (w.getChunkByCPos c).isSome

/-- `setChunk`: insert (or shadow) the chunk stored under the given key. -/
def WorldState.setChunk (w : WorldState) (c : Coords3) (ch : Chunk) : WorldState :=
  { w with chunks := (c, ch) :: w.chunks }

/-- Apply a function to the chunk stored at `c`, if any (models an in-place
mutation of the chunk object referenced from the store). -/
def WorldState.updateChunk (w : WorldState) (c : Coords3) (f : Chunk → Chunk) : WorldState :=
  match w.getChunkByCPos c with
  | some ch => w.setChunk c (f ch)
  | none => w

/-- `getChunkByVoxel`: resolve the chunk owning a voxel coordinate. -/
def WorldState.getChunkByVoxel (w : WorldState) (v : Coords3) : Option Chunk :=
  w.getChunkByCPos (mapVoxelPosToChunkPos v w.opts.chunkSize)

/-- The candidate face-neighbor coordinates computed by
`getNeighborChunksByVoxel` from the six near-face tests on the local position
(in source order: x-min, y-min, z-min, x-max, y-max, z-max). -/
def WorldState.neighborChunkCoords (w : WorldState) (v : Coords3) : List Coords3 :=
  (if (mapVoxelPosToChunkLocalPos v w.opts.chunkSize).x < (w.opts.chunkPadding : Int) then
    [⟨(mapVoxelPosToChunkPos v w.opts.chunkSize).x - 1,
      (mapVoxelPosToChunkPos v w.opts.chunkSize).y,
      (mapVoxelPosToChunkPos v w.opts.chunkSize).z⟩] else []) ++
  (if (mapVoxelPosToChunkLocalPos v w.opts.chunkSize).y < (w.opts.chunkPadding : Int) then
    [⟨(mapVoxelPosToChunkPos v w.opts.chunkSize).x,
      (mapVoxelPosToChunkPos v w.opts.chunkSize).y - 1,
      (mapVoxelPosToChunkPos v w.opts.chunkSize).z⟩] else []) ++
  (if (mapVoxelPosToChunkLocalPos v w.opts.chunkSize).z < (w.opts.chunkPadding : Int) then
    [⟨(mapVoxelPosToChunkPos v w.opts.chunkSize).x,
      (mapVoxelPosToChunkPos v w.opts.chunkSize).y,
      (mapVoxelPosToChunkPos v w.opts.chunkSize).z - 1⟩] else []) ++
  (if (mapVoxelPosToChunkLocalPos v w.opts.chunkSize).x ≥
      (w.opts.chunkSize : Int) - (w.opts.chunkPadding : Int) then
    [⟨(mapVoxelPosToChunkPos v w.opts.chunkSize).x + 1,
      (mapVoxelPosToChunkPos v w.opts.chunkSize).y,
      (mapVoxelPosToChunkPos v w.opts.chunkSize).z⟩] else []) ++
  (if (mapVoxelPosToChunkLocalPos v w.opts.chunkSize).y ≥
      (w.opts.chunkSize : Int) - (w.opts.chunkPadding : Int) then
    [⟨(mapVoxelPosToChunkPos v w.opts.chunkSize).x,
      (mapVoxelPosToChunkPos v w.opts.chunkSize).y + 1,
      (mapVoxelPosToChunkPos v w.opts.chunkSize).z⟩] else []) ++
  (if (mapVoxelPosToChunkLocalPos v w.opts.chunkSize).z ≥
      (w.opts.chunkSize : Int) - (w.opts.chunkPadding : Int) then
    [⟨(mapVoxelPosToChunkPos v w.opts.chunkSize).x,
      (mapVoxelPosToChunkPos v w.opts.chunkSize).y,
      (mapVoxelPosToChunkPos v w.opts.chunkSize).z + 1⟩] else [])

/-- `getNeighborChunksByVoxel`: the face-neighbor candidates that actually
exist in the store (the source's `filter(Boolean)`), as store keys. -/
def WorldState.getNeighborChunksByVoxel (w : WorldState) (v : Coords3) : List Coords3 :=
  (w.neighborChunkCoords v).filter (fun c => w.hasChunk c)

/-- `setVoxel`: write into the owning chunk if it exists, then propagate the
same `(voxelCoords, type)` write into every existing face-neighbor chunk whose
near-face test fired. -/
def WorldState.setVoxel (w : WorldState) (v : Coords3) (t : Nat) : WorldState :=
  let owner := mapVoxelPosToChunkPos v w.opts.chunkSize
  let w1 := match w.getChunkByVoxel v with
    | some _ => w.updateChunk owner (fun ch => ch.setVoxel v t)
    | none => w
  (w.getNeighborChunksByVoxel v).foldl
    (fun acc c => acc.updateChunk c (fun ch => ch.setVoxel v t)) w1

/-- The post-propagation consistency check of `setVoxel` (source lines
127-129): the neighbors that received the write but read back a value other
than `type` (the chunks for which the diagnostic branch fires). -/
def WorldState.setVoxelMismatches (w : WorldState) (v : Coords3) (t : Nat) : List Coords3 :=
  let w' := w.setVoxel v t
  (w.getNeighborChunksByVoxel v).filter fun c =>
    match w'.getChunkByCPos c with
    | some ch => ch.getVoxel v != some t
    | none => true

/-- `n` consecutive integers starting at `lo`. -/
def intRangeAux (lo : Int) : Nat → List Int
  | 0 => []
  | Nat.succ n => lo :: intRangeAux (lo + 1) n

/-- The list of integers from `lo` to `hi` inclusive (a `for` loop's index
range). -/
def intRange (lo hi : Int) : List Int :=
  intRangeAux lo (hi + 1 - lo).toNat

/-- The cubic grid of coordinates within `r` chunks of `center` on each axis,
in the source's x-outer/y-middle/z-inner loop order. -/
def cubeCoords (center : Coords3) (r : Nat) : List Coords3 :=
  (intRange (center.x - (r : Int)) (center.x + (r : Int))).flatMap fun x =>
    (intRange (center.y - (r : Int)) (center.y + (r : Int))).flatMap fun y =>
      (intRange (center.z - (r : Int)) (center.z + (r : Int))).map fun z => ⟨x, y, z⟩

/-- The squared Euclidean distance `dx*dx + dy*dy + dz*dz` between two grid
coordinates. -/
def distSq (a b : Coords3) : Int :=
  (a.x - b.x) * (a.x - b.x) + (a.y - b.y) * (a.y - b.y) + (a.z - b.z) * (a.z - b.z)

/-- The coordinates actually visited by the region loops: the cube with the
`continue`-guard `dx*dx + dy*dy + dz*dz > renderRadius * renderRadius`
removed, i.e. the discrete sphere. -/
def regionCoords (center : Coords3) (r : Nat) : List Coords3 :=
  (cubeCoords center r).filter (fun c => decide (distSq c center ≤ (r : Int) * (r : Int)))

/-- One iteration of the `surroundCamChunks` loop body: if no chunk exists at
the coordinate, construct a fresh one with the current configuration, insert
it into the store and `unshift` it onto the front of the work queue. -/
def WorldState.fillStep (w : WorldState) (c : Coords3) : WorldState :=
  if w.hasChunk c then w
  else
    { w with
      chunks := (c, Chunk.make c w.opts.chunkSize w.opts.dimension w.opts.chunkPadding) :: w.chunks,
      dirtyChunks := c :: w.dirtyChunks }

/-- `surroundCamChunks`: the region-fill step over the spherical region around
the camera chunk. -/
def WorldState.surroundCamChunks (w : WorldState) : WorldState :=
  (regionCoords w.camChunkPos w.opts.renderRadius).foldl WorldState.fillStep w

/-- Modelled from the spec: `Chunk#addToScene` adds the chunk to the visible
set; recorded as setting `isAdded` and logging the call. -/
def WorldState.addToScene (w : WorldState) (c : Coords3) : WorldState :=
  let w' := w.updateChunk c (fun ch => { ch with isAdded := true })
  { w' with events := w'.events ++ [WEvent.sceneAdded c] }

/-- Modelled from the spec: `Chunk#buildMesh` triggers a mesh build, putting a
build in flight (`isMeshing`); completion is asynchronous and out of scope.
Recorded as setting `isMeshing` and logging the call. -/
def WorldState.buildMesh (w : WorldState) (c : Coords3) : WorldState :=
  let w' := w.updateChunk c (fun ch => { ch with isMeshing := true })
  { w' with events := w'.events ++ [WEvent.meshBuildStarted c] }

/-- One iteration of the readiness-sweep loop body of `checkCamChunk`
(source lines 175-192). -/
def WorldState.sweepStep (w : WorldState) (c : Coords3) : WorldState :=
  match w.getChunkByCPos c with
  | none => w
  | some ch =>
    if ch.isInitialized then
      if !ch.isDirty then
        if !ch.isAdded then w.addToScene c else w
      else
        if !ch.isMeshing then w.buildMesh c else w
    else w

/-- The camera-tracking half of `checkCamChunk` (source lines 148-162): when
the derived chunk name differs from the stored one, emit `chunk-changed`,
update the tracking fields, and run the region fill. -/
def WorldState.camTrack (w : WorldState) (camVoxel : Coords3) : WorldState :=
  let chunkPos := mapVoxelPosToChunkPos camVoxel w.opts.chunkSize
  if w.camChunkName = some chunkPos then w
  else
    ({ w with
        events := w.events ++ [WEvent.chunkChanged chunkPos],
        camChunkName := some chunkPos,
        camChunkPos := chunkPos }).surroundCamChunks

/-- `checkCamChunk`: camera tracking followed by the readiness sweep over the
spherical region around the (possibly just updated) camera chunk. -/
def WorldState.checkCamChunk (w : WorldState) (camVoxel : Coords3) : WorldState :=
  let w1 := w.camTrack camVoxel
  (regionCoords w1.camChunkPos w1.opts.renderRadius).foldl WorldState.sweepStep w1

/-- `requestChunkData`: with no generator configured, conservatively mark the
chunk non-empty and pending and emit `data-needed`; otherwise invoke the
generator's asynchronous `generate` (whose completion is out of scope here). -/
def WorldState.requestChunkData (w : WorldState) (c : Coords3) : WorldState :=
  if !w.hasGenerator then
    let w' := w.updateChunk c (fun ch => { ch with isEmpty := false, isPending := true })
    { w' with events := w'.events ++ [WEvent.dataNeeded c] }
  else
    { w with events := w.events ++ [WEvent.generateCalled c] }

/-- The body of one `meshDirtyChunks` loop iteration, applied to the entry `c`
just shifted off the queue front (the state's queue already excludes it). -/
def WorldState.processEntry (w : WorldState) (c : Coords3) : WorldState :=
  match w.getChunkByCPos c with
  | none => w
  | some ch =>
    if ch.isPending then
      { w with dirtyChunks := w.dirtyChunks ++ [c] }
    else if !ch.isInitialized then
      let w' := w.requestChunkData c
      { w' with dirtyChunks := w'.dirtyChunks ++ [c] }
    else if ch.isMeshing then w
    else w.buildMesh c

/-- The `meshDirtyChunks` while loop: the counter admits `maxChunkPerFrame + 1`
iterations (`while count <= maxChunkPerFrame`), each shifting one entry off
the queue front.  Returns the final state together with the list of popped
entries in pop order. -/
def WorldState.drainLoop : Nat → WorldState → WorldState × List Coords3
  | 0, w => (w, [])
  | Nat.succ n, w =>
    match w.dirtyChunks with
    | [] => (w, [])
    | c :: rest =>
      let r := WorldState.drainLoop n (WorldState.processEntry { w with dirtyChunks := rest } c)
      (r.1, c :: r.2)

/-- `meshDirtyChunks`: drain up to `maxChunkPerFrame + 1` queue entries. -/
def WorldState.meshDirtyChunks (w : WorldState) : WorldState :=
  if w.dirtyChunks.isEmpty then w
  else (WorldState.drainLoop (w.opts.maxChunkPerFrame + 1) w).1

/-- `tick`: camera check and sweep, then the bounded queue drain. -/
def WorldState.tick (w : WorldState) (camVoxel : Coords3) : WorldState :=
  (w.checkCamChunk camVoxel).meshDirtyChunks

/-- Store well-formedness: every stored chunk sits under its own coordinates
and carries the world's configured size and padding (this is what "padding
configured consistently with size" amounts to for the stored chunks). -/
def WorldState.WFChunks (w : WorldState) : Prop :=
  ∀ c ch, w.getChunkByCPos c = some ch →
    ch.coords = c ∧ ch.size = w.opts.chunkSize ∧ ch.padding = w.opts.chunkPadding

/-- Two grid coordinates share a face: they differ by exactly one along
exactly one axis. -/
def faceAdjacent (a b : Coords3) : Prop :=
  (a.x - b.x).natAbs + (a.y - b.y).natAbs + (a.z - b.z).natAbs = 1

/-! ## Store lemmas -/

@[simp] lemma getChunkByCPos_setChunk_self (w : WorldState) (c : Coords3) (ch : Chunk) :
    (w.setChunk c ch).getChunkByCPos c = some ch := by
  simp [WorldState.setChunk, WorldState.getChunkByCPos]

lemma getChunkByCPos_setChunk_ne (w : WorldState) {c c' : Coords3} (h : c' ≠ c) (ch : Chunk) :
    (w.setChunk c ch).getChunkByCPos c' = w.getChunkByCPos c' := by
  have hbe : (c == c') = false := by simpa using Ne.symm h
  simp [WorldState.setChunk, WorldState.getChunkByCPos, List.find?, hbe]

lemma getChunkByCPos_updateChunk_self (w : WorldState) (c : Coords3) (f : Chunk → Chunk) :
    (w.updateChunk c f).getChunkByCPos c = (w.getChunkByCPos c).map f := by
  unfold WorldState.updateChunk
  cases h : w.getChunkByCPos c <;> simp [h]

lemma getChunkByCPos_updateChunk_ne (w : WorldState) {c c' : Coords3} (h : c' ≠ c)
    (f : Chunk → Chunk) :
    (w.updateChunk c f).getChunkByCPos c' = w.getChunkByCPos c' := by
  unfold WorldState.updateChunk
  cases h' : w.getChunkByCPos c
  · rfl
  · exact getChunkByCPos_setChunk_ne _ h _

lemma hasChunk_updateChunk (w : WorldState) (c c' : Coords3) (f : Chunk → Chunk) :
    (w.updateChunk c f).hasChunk c' = w.hasChunk c' := by
  unfold WorldState.hasChunk
  rcases eq_or_ne c' c with rfl | h
  · rw [getChunkByCPos_updateChunk_self]; cases w.getChunkByCPos c' <;> rfl
  · rw [getChunkByCPos_updateChunk_ne _ h]

@[simp] lemma updateChunk_opts (w : WorldState) (c : Coords3) (f : Chunk → Chunk) :
    (w.updateChunk c f).opts = w.opts := by
  unfold WorldState.updateChunk WorldState.setChunk
  cases w.getChunkByCPos c <;> rfl

@[simp] lemma updateChunk_hasGenerator (w : WorldState) (c : Coords3) (f : Chunk → Chunk) :
    (w.updateChunk c f).hasGenerator = w.hasGenerator := by
  unfold WorldState.updateChunk WorldState.setChunk
  cases w.getChunkByCPos c <;> rfl

@[simp] lemma updateChunk_dirtyChunks (w : WorldState) (c : Coords3) (f : Chunk → Chunk) :
    (w.updateChunk c f).dirtyChunks = w.dirtyChunks := by
  unfold WorldState.updateChunk WorldState.setChunk
  cases w.getChunkByCPos c <;> rfl

@[simp] lemma updateChunk_camChunkName (w : WorldState) (c : Coords3) (f : Chunk → Chunk) :
    (w.updateChunk c f).camChunkName = w.camChunkName := by
  unfold WorldState.updateChunk WorldState.setChunk
  cases w.getChunkByCPos c <;> rfl

@[simp] lemma updateChunk_camChunkPos (w : WorldState) (c : Coords3) (f : Chunk → Chunk) :
    (w.updateChunk c f).camChunkPos = w.camChunkPos := by
  unfold WorldState.updateChunk WorldState.setChunk
  cases w.getChunkByCPos c <;> rfl

@[simp] lemma updateChunk_events (w : WorldState) (c : Coords3) (f : Chunk → Chunk) :
    (w.updateChunk c f).events = w.events := by
  unfold WorldState.updateChunk WorldState.setChunk
  cases w.getChunkByCPos c <;> rfl

/-! ## Region membership -/

lemma mem_intRangeAux {x lo : Int} {n : Nat} :
    x ∈ intRangeAux lo n ↔ lo ≤ x ∧ x < lo + n := by
  induction n generalizing lo with
  | zero => simp [intRangeAux]
  | succ n ih => simp [intRangeAux, ih, List.mem_cons]; omega

lemma mem_intRange {lo hi x : Int} : x ∈ intRange lo hi ↔ lo ≤ x ∧ x ≤ hi := by
  unfold intRange
  rw [mem_intRangeAux]
  omega

lemma mem_cubeCoords {center : Coords3} {r : Nat} {c : Coords3} :
    c ∈ cubeCoords center r ↔
      center.x - r ≤ c.x ∧ c.x ≤ center.x + r ∧
      center.y - r ≤ c.y ∧ c.y ≤ center.y + r ∧
      center.z - r ≤ c.z ∧ c.z ≤ center.z + r := by
  unfold cubeCoords
  simp only [List.mem_flatMap, List.mem_map, mem_intRange]
  constructor
  · rintro ⟨x, hx, y, hy, z, hz, rfl⟩
    exact ⟨hx.1, hx.2, hy.1, hy.2, hz.1, hz.2⟩
  · intro h
    exact ⟨c.x, ⟨h.1, h.2.1⟩, c.y, ⟨h.2.2.1, h.2.2.2.1⟩, c.z, ⟨h.2.2.2.2.1, h.2.2.2.2.2⟩, rfl⟩

lemma sq_le_bound {a r : Int} (hr : 0 ≤ r) (h : a * a ≤ r * r) : -r ≤ a ∧ a ≤ r := by
  constructor <;> nlinarith [mul_self_nonneg (a - r), mul_self_nonneg (a + r)]

lemma mem_regionCoords {center : Coords3} {r : Nat} {c : Coords3} :
    c ∈ regionCoords center r ↔ distSq c center ≤ (r : Int) * (r : Int) := by
  unfold regionCoords
  rw [List.mem_filter]
  constructor
  · rintro ⟨-, h⟩
    simpa using h
  · intro h
    refine ⟨?_, by simpa using h⟩
    rw [mem_cubeCoords]
    unfold distSq at h
    have hx := sq_le_bound (a := c.x - center.x) (r := (r : Int)) (by positivity)
      (by nlinarith [mul_self_nonneg (c.y - center.y), mul_self_nonneg (c.z - center.z)])
    have hy := sq_le_bound (a := c.y - center.y) (r := (r : Int)) (by positivity)
      (by nlinarith [mul_self_nonneg (c.x - center.x), mul_self_nonneg (c.z - center.z)])
    have hz := sq_le_bound (a := c.z - center.z) (r := (r : Int)) (by positivity)
      (by nlinarith [mul_self_nonneg (c.x - center.x), mul_self_nonneg (c.y - center.y)])
    omega

/-! ## Region fill -/

lemma find?_cons_key (x : Coords3) (ch : Chunk) (l : List (Coords3 × Chunk)) (c : Coords3) :
    (((x, ch) :: l).find? (fun p => p.1 == c)).map Prod.snd
      = if c = x then some ch else (l.find? (fun p => p.1 == c)).map Prod.snd := by
  rcases eq_or_ne c x with rfl | h
  · simp [List.find?]
  · have hbe : (x == c) = false := by simpa using Ne.symm h
    simp [List.find?, hbe, h]

lemma hasChunk_fillStep (w : WorldState) (x c : Coords3) :
    (w.fillStep x).hasChunk c = (w.hasChunk c || decide (c = x)) := by
  unfold WorldState.fillStep
  by_cases hx : w.hasChunk x = true
  · rcases eq_or_ne c x with rfl | hne
    · simp [hx]
    · simp [hx, hne]
  · rw [Bool.not_eq_true] at hx
    rcases eq_or_ne c x with rfl | hne
    · simp only [hx, Bool.false_eq_true, if_false]
      simp [WorldState.hasChunk, WorldState.getChunkByCPos, List.find?, hx]
    · simp only [hx, Bool.false_eq_true, if_false]
      unfold WorldState.hasChunk WorldState.getChunkByCPos
      simp only [find?_cons_key, hne, if_false]
      simp [hne]

lemma fillStep_fields (w : WorldState) (x : Coords3) :
    (w.fillStep x).opts = w.opts ∧ (w.fillStep x).events = w.events ∧
    (w.fillStep x).camChunkPos = w.camChunkPos ∧
    (w.fillStep x).camChunkName = w.camChunkName ∧
    (w.fillStep x).hasGenerator = w.hasGenerator := by
  unfold WorldState.fillStep
  split <;> simp

lemma fill_foldl_fields (L : List Coords3) (w : WorldState) :
    (L.foldl WorldState.fillStep w).opts = w.opts ∧
    (L.foldl WorldState.fillStep w).events = w.events ∧
    (L.foldl WorldState.fillStep w).camChunkPos = w.camChunkPos ∧
    (L.foldl WorldState.fillStep w).camChunkName = w.camChunkName ∧
    (L.foldl WorldState.fillStep w).hasGenerator = w.hasGenerator := by
  induction L generalizing w with
  | nil => exact ⟨rfl, rfl, rfl, rfl, rfl⟩
  | cons x L ih =>
    have h := fillStep_fields w x
    have h2 := ih (w.fillStep x)
    simp only [List.foldl]
    exact ⟨h2.1.trans h.1, h2.2.1.trans h.2.1, h2.2.2.1.trans h.2.2.1,
      h2.2.2.2.1.trans h.2.2.2.1, h2.2.2.2.2.trans h.2.2.2.2⟩

lemma hasChunk_foldl_fill (L : List Coords3) (w : WorldState) (c : Coords3) :
    (L.foldl WorldState.fillStep w).hasChunk c = (w.hasChunk c || decide (c ∈ L)) := by
  induction L generalizing w with
  | nil => simp
  | cons x L ih =>
    simp only [List.foldl]
    rw [ih, hasChunk_fillStep]
    by_cases h1 : c = x <;> by_cases h2 : c ∈ L <;> simp [h1, h2, List.mem_cons]

lemma getChunkByCPos_fillStep_of_hasChunk (w : WorldState) {x c : Coords3}
    (h : w.hasChunk c = true) :
    (w.fillStep x).getChunkByCPos c = w.getChunkByCPos c := by
  unfold WorldState.fillStep
  by_cases hx : w.hasChunk x = true
  · simp [hx]
  · rw [Bool.not_eq_true] at hx
    have hne : c ≠ x := fun hcx => by rw [hcx, hx] at h; cases h
    simp only [hx, Bool.false_eq_true, if_false]
    unfold WorldState.getChunkByCPos
    simp only [find?_cons_key, hne, if_false]

lemma getChunkByCPos_foldl_fill_of_hasChunk (L : List Coords3) (w : WorldState) {c : Coords3}
    (h : w.hasChunk c = true) :
    (L.foldl WorldState.fillStep w).getChunkByCPos c = w.getChunkByCPos c := by
  induction L generalizing w with
  | nil => rfl
  | cons x L ih =>
    simp only [List.foldl]
    have h1 : (w.fillStep x).hasChunk c = true := by rw [hasChunk_fillStep, h]; simp
    rw [ih _ h1, getChunkByCPos_fillStep_of_hasChunk w h]

lemma fill_foldl_created (L : List Coords3) (w : WorldState) :
    ∃ created : List Coords3,
      (L.foldl WorldState.fillStep w).dirtyChunks = created ++ w.dirtyChunks ∧
      (∀ c, c ∈ created ↔ (w.hasChunk c = false ∧ c ∈ L)) ∧
      (∀ c, c ∈ created →
        (L.foldl WorldState.fillStep w).getChunkByCPos c =
          some (Chunk.make c w.opts.chunkSize w.opts.dimension w.opts.chunkPadding)) := by
  induction L generalizing w with
  | nil => exact ⟨[], by simp, by simp, by simp⟩
  | cons x L ih =>
    by_cases hx : w.hasChunk x = true
    · have hstep : w.fillStep x = w := by
        unfold WorldState.fillStep
        simp [hx]
      obtain ⟨created, h1, h2, h3⟩ := ih w
      refine ⟨created, ?_, ?_, ?_⟩
      · simpa [hstep] using h1
      · intro c
        rw [h2 c]
        constructor
        · rintro ⟨hc, hcl⟩
          exact ⟨hc, List.mem_cons_of_mem _ hcl⟩
        · rintro ⟨hc, hcl⟩
          rcases List.mem_cons.mp hcl with rfl | hcl
          · rw [hx] at hc; cases hc
          · exact ⟨hc, hcl⟩
      · intro c hc
        simpa [hstep] using h3 c hc
    · rw [Bool.not_eq_true] at hx
      obtain ⟨created, h1, h2, h3⟩ := ih (w.fillStep x)
      have hfields := fillStep_fields w x
      have hw1queue : (w.fillStep x).dirtyChunks = x :: w.dirtyChunks := by
        unfold WorldState.fillStep
        simp [hx]
      have hw1get : (w.fillStep x).getChunkByCPos x =
          some (Chunk.make x w.opts.chunkSize w.opts.dimension w.opts.chunkPadding) := by
        unfold WorldState.fillStep
        simp only [hx, Bool.false_eq_true, if_false]
        unfold WorldState.getChunkByCPos
        simp [find?_cons_key]
      have hw1has : (w.fillStep x).hasChunk x = true := by
        rw [hasChunk_fillStep]
        simp
      refine ⟨created ++ [x], ?_, ?_, ?_⟩
      · simp only [List.foldl]
        rw [h1, hw1queue, List.append_assoc, List.singleton_append]
      · intro c
        simp only [List.mem_append, List.mem_singleton, h2 c, hasChunk_fillStep,
          List.mem_cons]
        rcases eq_or_ne c x with rfl | hne
        · simp [hx]
        · simp [hne]
      · intro c hc
        rcases List.mem_append.mp hc with hc' | hc'
        · rw [List.foldl_cons, h3 c hc', hfields.1]
        · rw [List.mem_singleton] at hc'
          subst hc'
          rw [List.foldl_cons, getChunkByCPos_foldl_fill_of_hasChunk L _ hw1has, hw1get]

/--
**C1.** On a tick where the camera's chunk changed, the region-fill step
(`surroundCamChunks`) covers exactly the grid coordinates at squared Euclidean
distance at most `renderRadius²` from the camera chunk (the boundary
`d = R²` included): afterwards a chunk exists at `c` iff it already existed or
`distSq c cam ≤ R²`; existing chunks are untouched; and the newly created
chunks — exactly the in-range coordinates that had no chunk — are fresh
(uninitialized, dirty) chunks built from the current configuration, inserted
into the store and pushed onto the front of the work queue.  No chunk is
created anywhere else, and no chunk is created at squared distance `> R²`.
-/
theorem surroundCamChunks_region_fill (w : WorldState) :
    (∀ c, (w.surroundCamChunks).hasChunk c = true ↔
      (w.hasChunk c = true ∨
        distSq c w.camChunkPos ≤ (w.opts.renderRadius : Int) * (w.opts.renderRadius : Int))) ∧
    (∀ c, w.hasChunk c = true →
      (w.surroundCamChunks).getChunkByCPos c = w.getChunkByCPos c) ∧
    (∃ created : List Coords3,
      (w.surroundCamChunks).dirtyChunks = created ++ w.dirtyChunks ∧
      (∀ c, c ∈ created ↔ (w.hasChunk c = false ∧
        distSq c w.camChunkPos ≤ (w.opts.renderRadius : Int) * (w.opts.renderRadius : Int))) ∧
      (∀ c, c ∈ created →
        (w.surroundCamChunks).getChunkByCPos c =
          some (Chunk.make c w.opts.chunkSize w.opts.dimension w.opts.chunkPadding))) ∧
    (∀ c s d p, (Chunk.make c s d p).isInitialized = false ∧ (Chunk.make c s d p).isDirty = true) := by
  refine ⟨?_, ?_, ?_, fun c s d p => ⟨rfl, rfl⟩⟩
  · intro c
    unfold WorldState.surroundCamChunks
    rw [hasChunk_foldl_fill]
    simp [mem_regionCoords]
  · intro c h
    exact getChunkByCPos_foldl_fill_of_hasChunk _ _ h
  · obtain ⟨created, h1, h2, h3⟩ :=
      fill_foldl_created (regionCoords w.camChunkPos w.opts.renderRadius) w
    refine ⟨created, h1, ?_, h3⟩
    intro c
    rw [h2 c, mem_regionCoords]

/--
Witness for C1: in a world with default options, an empty store and the camera
chunk at the origin, the region fill creates a chunk at `(1, 0, 0)` (squared
distance 1 ≤ 9). -/
theorem surroundCamChunks_region_fill_witness :
    ({ opts := defaultWorldOptions, hasGenerator := true, chunks := [], dirtyChunks := [],
       camChunkName := none, camChunkPos := ⟨0, 0, 0⟩, events := [] } :
        WorldState).surroundCamChunks.hasChunk ⟨1, 0, 0⟩ = true :=
  ((surroundCamChunks_region_fill _).1 ⟨1, 0, 0⟩).mpr (Or.inr (by decide))

/-! ## Camera tracking -/

lemma surroundCamChunks_fields (w : WorldState) :
    (w.surroundCamChunks).opts = w.opts ∧ (w.surroundCamChunks).events = w.events ∧
    (w.surroundCamChunks).camChunkPos = w.camChunkPos ∧
    (w.surroundCamChunks).camChunkName = w.camChunkName ∧
    (w.surroundCamChunks).hasGenerator = w.hasGenerator :=
  fill_foldl_fields _ w

/--
**C8.** The camera tracker: on a tick where the derived camera-chunk name
equals the stored `camChunkName`, the tracking half of `checkCamChunk` does
nothing at all — no "chunk changed" notification, no field update, no region
fill.  Only when the derived name differs does it emit `chunk-changed` with
the new camera chunk coordinates, update `camChunkName`/`camChunkPos`, and run
the region fill on the updated state.
-/
theorem camTrack_only_acts_on_change (w : WorldState) (camVoxel : Coords3) :
    (w.camChunkName = some (mapVoxelPosToChunkPos camVoxel w.opts.chunkSize) →
      w.camTrack camVoxel = w) ∧
    (w.camChunkName ≠ some (mapVoxelPosToChunkPos camVoxel w.opts.chunkSize) →
      w.camTrack camVoxel =
        ({ w with
            events := w.events ++
              [WEvent.chunkChanged (mapVoxelPosToChunkPos camVoxel w.opts.chunkSize)],
            camChunkName := some (mapVoxelPosToChunkPos camVoxel w.opts.chunkSize),
            camChunkPos := mapVoxelPosToChunkPos camVoxel w.opts.chunkSize }).surroundCamChunks ∧
      (w.camTrack camVoxel).events =
        w.events ++ [WEvent.chunkChanged (mapVoxelPosToChunkPos camVoxel w.opts.chunkSize)] ∧
      (w.camTrack camVoxel).camChunkName =
        some (mapVoxelPosToChunkPos camVoxel w.opts.chunkSize) ∧
      (w.camTrack camVoxel).camChunkPos = mapVoxelPosToChunkPos camVoxel w.opts.chunkSize) := by
  constructor
  · intro h
    unfold WorldState.camTrack
    simp [h]
  · intro h
    have hstep : w.camTrack camVoxel =
        ({ w with
            events := w.events ++
              [WEvent.chunkChanged (mapVoxelPosToChunkPos camVoxel w.opts.chunkSize)],
            camChunkName := some (mapVoxelPosToChunkPos camVoxel w.opts.chunkSize),
            camChunkPos := mapVoxelPosToChunkPos camVoxel w.opts.chunkSize }).surroundCamChunks := by
      unfold WorldState.camTrack
      simp [h]
    refine ⟨hstep, ?_, ?_, ?_⟩
    · rw [hstep, (surroundCamChunks_fields _).2.1]
    · rw [hstep, (surroundCamChunks_fields _).2.2.2.1]
    · rw [hstep, (surroundCamChunks_fields _).2.2.1]

/--
Witness for C8: with `camChunkName` initially unset (first tick), the tracker
fires and records the new camera chunk name. -/
theorem camTrack_only_acts_on_change_witness :
    (({ opts := defaultWorldOptions, hasGenerator := true, chunks := [], dirtyChunks := [],
        camChunkName := none, camChunkPos := ⟨0, 0, 0⟩, events := [] } :
          WorldState).camTrack ⟨0, 0, 0⟩).camChunkName = some ⟨0, 0, 0⟩ :=
  ((camTrack_only_acts_on_change _ ⟨0, 0, 0⟩).2 (by decide)).2.2.1

/-! ## Readiness sweep -/

lemma getChunkByCPos_addToScene_ne (w : WorldState) {c c' : Coords3} (h : c ≠ c') :
    (w.addToScene c').getChunkByCPos c = w.getChunkByCPos c := by
  unfold WorldState.addToScene
  exact getChunkByCPos_updateChunk_ne w (Ne.symm (Ne.symm h)) _

lemma getChunkByCPos_buildMesh_ne (w : WorldState) {c c' : Coords3} (h : c ≠ c') :
    (w.buildMesh c').getChunkByCPos c = w.getChunkByCPos c := by
  unfold WorldState.buildMesh
  exact getChunkByCPos_updateChunk_ne w (Ne.symm (Ne.symm h)) _

lemma sweepStep_getChunkByCPos_ne (w : WorldState) {c c' : Coords3} (h : c ≠ c') :
    (w.sweepStep c').getChunkByCPos c = w.getChunkByCPos c := by
  unfold WorldState.sweepStep
  cases hc : w.getChunkByCPos c' with
  | none => rfl
  | some ch =>
    by_cases h1 : ch.isInitialized = true
    · by_cases h2 : ch.isDirty = true
      · by_cases h3 : ch.isMeshing = true
        · simp [h1, h2, h3]
        · simp [h1, h2, h3, getChunkByCPos_buildMesh_ne w h]
      · by_cases h4 : ch.isAdded = true
        · simp [h1, h2, h4]
        · simp [h1, h2, h4, getChunkByCPos_addToScene_ne w h]
    · simp [h1]

lemma getChunkByCPos_foldl_sweep_not_mem (L : List Coords3) (w : WorldState) {c : Coords3}
    (h : c ∉ L) :
    (L.foldl WorldState.sweepStep w).getChunkByCPos c = w.getChunkByCPos c := by
  induction L generalizing w with
  | nil => rfl
  | cons x L ih =>
    simp only [List.foldl]
    have hx : c ≠ x := fun hc => h (hc ▸ List.mem_cons_self x L)
    rw [ih _ (fun hc => h (List.mem_cons_of_mem _ hc)), sweepStep_getChunkByCPos_ne w hx]

/--
**C4.** The readiness sweep runs every tick over the spherical active region
(the second half of `checkCamChunk`), and for each visited coordinate acts on
the chunk found there exactly per the decision table: absent or uninitialized
chunks get no action; an initialized, clean, not-yet-added chunk is added to
the scene; an initialized, clean, already-added chunk gets no action; an
initialized dirty chunk with no build in flight gets a mesh build triggered;
an initialized dirty chunk already meshing gets no action.  Each step touches
no chunk other than the one it visits, chunks outside the spherical region are
untouched by the sweep, and the region is exactly the coordinates at squared
distance at most `renderRadius²`.
-/
theorem checkCamChunk_readiness_sweep :
    (∀ (w : WorldState) (camVoxel : Coords3),
      w.checkCamChunk camVoxel =
        (regionCoords (w.camTrack camVoxel).camChunkPos
            (w.camTrack camVoxel).opts.renderRadius).foldl
          WorldState.sweepStep (w.camTrack camVoxel)) ∧
    (∀ (w : WorldState) (c : Coords3), w.getChunkByCPos c = none → w.sweepStep c = w) ∧
    (∀ (w : WorldState) (c : Coords3) (ch : Chunk), w.getChunkByCPos c = some ch →
      (ch.isInitialized = false → w.sweepStep c = w) ∧
      (ch.isInitialized = true → ch.isDirty = false → ch.isAdded = false →
        w.sweepStep c = w.addToScene c) ∧
      (ch.isInitialized = true → ch.isDirty = false → ch.isAdded = true →
        w.sweepStep c = w) ∧
      (ch.isInitialized = true → ch.isDirty = true → ch.isMeshing = false →
        w.sweepStep c = w.buildMesh c) ∧
      (ch.isInitialized = true → ch.isDirty = true → ch.isMeshing = true →
        w.sweepStep c = w)) ∧
    (∀ (w : WorldState) (c c' : Coords3), c ≠ c' →
      (w.sweepStep c').getChunkByCPos c = w.getChunkByCPos c) ∧
    (∀ (w : WorldState) (camVoxel : Coords3) (c : Coords3),
      ¬ distSq c (w.camTrack camVoxel).camChunkPos ≤
          ((w.camTrack camVoxel).opts.renderRadius : Int) *
            ((w.camTrack camVoxel).opts.renderRadius : Int) →
      (w.checkCamChunk camVoxel).getChunkByCPos c =
        (w.camTrack camVoxel).getChunkByCPos c) ∧
    (∀ (center : Coords3) (r : Nat) (c : Coords3),
      c ∈ regionCoords center r ↔ distSq c center ≤ (r : Int) * (r : Int)) := by
  refine ⟨fun w camVoxel => rfl, ?_, ?_, ?_, ?_, fun center r c => mem_regionCoords⟩
  · intro w c h
    unfold WorldState.sweepStep
    rw [h]
  · intro w c ch h
    refine ⟨?_, ?_, ?_, ?_, ?_⟩
    · intro h1
      unfold WorldState.sweepStep
      rw [h]
      simp [h1]
    · intro h1 h2 h3
      unfold WorldState.sweepStep
      rw [h]
      simp [h1, h2, h3]
    · intro h1 h2 h3
      unfold WorldState.sweepStep
      rw [h]
      simp [h1, h2, h3]
    · intro h1 h2 h3
      unfold WorldState.sweepStep
      rw [h]
      simp [h1, h2, h3]
    · intro h1 h2 h3
      unfold WorldState.sweepStep
      rw [h]
      simp [h1, h2, h3]
  · intro w c c' h
    exact sweepStep_getChunkByCPos_ne w h
  · intro w camVoxel c h
    unfold WorldState.checkCamChunk
    exact getChunkByCPos_foldl_sweep_not_mem _ _ (fun hc => h (mem_regionCoords.mp hc))

/-- A fixture: an initialized, clean, not-yet-added chunk at the origin. -/
def readyChunk : Chunk :=
  { coords := ⟨0, 0, 0⟩, size := 32, padding := 2, dimension := 1, voxels := [],
    isInitialized := true, isPending := false, isDirty := false, isMeshing := false,
    isAdded := false, isEmpty := false }

/-- A fixture: a world with default options holding only `readyChunk`. -/
def readyWorld : WorldState :=
  { opts := defaultWorldOptions, hasGenerator := true, chunks := [(⟨0, 0, 0⟩, readyChunk)],
    dirtyChunks := [], camChunkName := none, camChunkPos := ⟨0, 0, 0⟩, events := [] }

/--
Witness for C4: on a world holding a single initialized, clean, not-yet-added
chunk at the origin, the sweep step adds it to the scene. -/
theorem checkCamChunk_readiness_sweep_witness :
    readyWorld.sweepStep ⟨0, 0, 0⟩ = readyWorld.addToScene ⟨0, 0, 0⟩ :=
  ((checkCamChunk_readiness_sweep.2.2.1 readyWorld ⟨0, 0, 0⟩ readyChunk (by decide)).2.1
    (by decide) (by decide) (by decide))

/-! ## Scheduler drain -/

lemma requestChunkData_dirtyChunks (w : WorldState) (c : Coords3) :
    (w.requestChunkData c).dirtyChunks = w.dirtyChunks := by
  unfold WorldState.requestChunkData
  split <;> simp

lemma buildMesh_dirtyChunks (w : WorldState) (c : Coords3) :
    (w.buildMesh c).dirtyChunks = w.dirtyChunks := by
  unfold WorldState.buildMesh
  simp

lemma processEntry_queue_shape (w : WorldState) (c : Coords3) :
    ∃ t : List Coords3, (w.processEntry c).dirtyChunks = w.dirtyChunks ++ t ∧ t.length ≤ 1 := by
  unfold WorldState.processEntry
  cases h : w.getChunkByCPos c with
  | none => exact ⟨[], by simp, by simp⟩
  | some ch =>
    by_cases h1 : ch.isPending = true
    · exact ⟨[c], by simp [h1], by simp⟩
    · by_cases h2 : ch.isInitialized = true
      · by_cases h3 : ch.isMeshing = true
        · exact ⟨[], by simp [h1, h2, h3], by simp⟩
        · exact ⟨[], by simp [h1, h2, h3, buildMesh_dirtyChunks], by simp⟩
      · exact ⟨[c], by simp [h1, h2, requestChunkData_dirtyChunks], by simp⟩

lemma drainLoop_popped_length (n : Nat) (w : WorldState) :
    (WorldState.drainLoop n w).2.length ≤ n := by
  induction n generalizing w with
  | zero => simp [WorldState.drainLoop]
  | succ n ih =>
    unfold WorldState.drainLoop
    cases h : w.dirtyChunks with
    | nil => simp
    | cons c rest =>
      simp only [List.length_cons]
      exact Nat.succ_le_succ (ih _)

lemma drainLoop_pops_queue_front (n : Nat) (w : WorldState) (P rest0 : List Coords3)
    (hq : w.dirtyChunks = P ++ rest0) (hlen : P.length ≤ n) :
    ∃ extra, (WorldState.drainLoop n w).2 = P ++ extra := by
  induction n generalizing w P rest0 with
  | zero =>
    have : P = [] := List.length_eq_zero.mp (Nat.le_zero.mp hlen)
    exact ⟨(WorldState.drainLoop 0 w).2, by simp [this]⟩
  | succ n ih =>
    cases P with
    | nil => exact ⟨(WorldState.drainLoop (n + 1) w).2, by simp⟩
    | cons c P' =>
      unfold WorldState.drainLoop
      rw [hq]
      simp only [List.cons_append]
      obtain ⟨t, ht, -⟩ :=
        processEntry_queue_shape { w with dirtyChunks := P' ++ rest0 } c
      obtain ⟨extra, hex⟩ := ih (WorldState.processEntry { w with dirtyChunks := P' ++ rest0 } c)
        P' (rest0 ++ t) (by rw [ht]; simp) (by simpa using Nat.le_of_succ_le_succ hlen)
      exact ⟨extra, by simp [hex]⟩

/--
**C2.** The scheduler drain's per-tick budget: the `while` loop of
`meshDirtyChunks` pops at most `maxChunkPerFrame + 1` entries off the queue
(the explicit `+1` slack), and whenever the queue initially holds at most
`maxChunkPerFrame + 1` entries, every one of them is popped this tick (the
popped sequence starts with the whole initial queue).
-/
theorem meshDirtyChunks_budget (w : WorldState) :
    ((WorldState.drainLoop (w.opts.maxChunkPerFrame + 1) w).2.length ≤
      w.opts.maxChunkPerFrame + 1) ∧
    (w.dirtyChunks.length ≤ w.opts.maxChunkPerFrame + 1 →
      ∃ extra, (WorldState.drainLoop (w.opts.maxChunkPerFrame + 1) w).2 =
        w.dirtyChunks ++ extra) ∧
    (w.meshDirtyChunks = if w.dirtyChunks.isEmpty then w
      else (WorldState.drainLoop (w.opts.maxChunkPerFrame + 1) w).1) := by
  refine ⟨drainLoop_popped_length _ w, ?_, rfl⟩
  intro h
  exact drainLoop_pops_queue_front _ w w.dirtyChunks [] (by simp) h

/-- A fixture: an uninitialized, never-requested (non-pending) fresh chunk. -/
def freshChunkAt (c : Coords3) : Chunk := Chunk.make c 32 1 2

/-- A fixture: default options, generator configured, two fresh chunks queued. -/
def twoQueuedWorld : WorldState :=
  { opts := defaultWorldOptions, hasGenerator := true,
    chunks := [(⟨0, 0, 0⟩, freshChunkAt ⟨0, 0, 0⟩), (⟨1, 0, 0⟩, freshChunkAt ⟨1, 0, 0⟩)],
    dirtyChunks := [⟨0, 0, 0⟩, ⟨1, 0, 0⟩],
    camChunkName := none, camChunkPos := ⟨0, 0, 0⟩, events := [] }

/--
Witness for C2: with `maxChunkPerFrame = 1` and a queue of two entries, the
drain pops exactly the two queued entries. -/
theorem meshDirtyChunks_budget_witness :
    (WorldState.drainLoop (twoQueuedWorld.opts.maxChunkPerFrame + 1) twoQueuedWorld).2 =
      [⟨0, 0, 0⟩, ⟨1, 0, 0⟩] := by
  obtain ⟨extra, hex⟩ := (meshDirtyChunks_budget twoQueuedWorld).2.1 (by decide)
  have hlen := (meshDirtyChunks_budget twoQueuedWorld).1
  rw [hex] at hlen ⊢
  have : extra = [] := by
    rw [List.length_append] at hlen
    have : extra.length = 0 := by
      have h2 : twoQueuedWorld.dirtyChunks.length = 2 := by decide
      have h3 : twoQueuedWorld.opts.maxChunkPerFrame = 1 := by decide
      omega
    exact List.length_eq_zero.mp this
  rw [this]
  rfl

/-- A fixture: default options (`maxChunkPerFrame = 1`), generator configured,
five fresh never-requested chunks queued. -/
def fiveQueuedWorld : WorldState :=
  { opts := defaultWorldOptions, hasGenerator := true,
    chunks := [(⟨0, 0, 0⟩, freshChunkAt ⟨0, 0, 0⟩), (⟨1, 0, 0⟩, freshChunkAt ⟨1, 0, 0⟩),
               (⟨2, 0, 0⟩, freshChunkAt ⟨2, 0, 0⟩), (⟨3, 0, 0⟩, freshChunkAt ⟨3, 0, 0⟩),
               (⟨4, 0, 0⟩, freshChunkAt ⟨4, 0, 0⟩)],
    dirtyChunks := [⟨0, 0, 0⟩, ⟨1, 0, 0⟩, ⟨2, 0, 0⟩, ⟨3, 0, 0⟩, ⟨4, 0, 0⟩],
    camChunkName := none, camChunkPos := ⟨0, 0, 0⟩, events := [] }

/--
**C3.** The per-entry dispatch of the scheduler drain: a pending chunk is
pushed back to the rear of the queue and nothing else happens; a non-pending
uninitialized chunk gets a generation request and is pushed back to the rear;
a chunk whose mesh build is in flight is dropped without requeue; any other
chunk gets a mesh build triggered and is dropped.  Consequently, with
`maxChunkPerFrame = 1` and a queue of five never-requested chunks, one tick's
drain issues generation requests for exactly the first two chunks (at most 2,
honoring the `+1` slack) and the queue afterwards still holds all five chunks.
-/
theorem processEntry_dispatch :
    (∀ (w : WorldState) (c : Coords3) (ch : Chunk), w.getChunkByCPos c = some ch →
      (ch.isPending = true →
        w.processEntry c = { w with dirtyChunks := w.dirtyChunks ++ [c] }) ∧
      (ch.isPending = false → ch.isInitialized = false →
        w.processEntry c =
          { w.requestChunkData c with
              dirtyChunks := (w.requestChunkData c).dirtyChunks ++ [c] }) ∧
      (ch.isPending = false → ch.isInitialized = true → ch.isMeshing = true →
        w.processEntry c = w) ∧
      (ch.isPending = false → ch.isInitialized = true → ch.isMeshing = false →
        w.processEntry c = w.buildMesh c)) ∧
    ((fiveQueuedWorld.meshDirtyChunks).events =
      [WEvent.generateCalled ⟨0, 0, 0⟩, WEvent.generateCalled ⟨1, 0, 0⟩]) ∧
    ((fiveQueuedWorld.meshDirtyChunks).dirtyChunks =
      [⟨2, 0, 0⟩, ⟨3, 0, 0⟩, ⟨4, 0, 0⟩, ⟨0, 0, 0⟩, ⟨1, 0, 0⟩]) ∧
    (∀ c, c ∈ fiveQueuedWorld.dirtyChunks →
      c ∈ (fiveQueuedWorld.meshDirtyChunks).dirtyChunks ∧
      ∃ ch, (fiveQueuedWorld.meshDirtyChunks).getChunkByCPos c = some ch ∧
        ch.isInitialized = false) := by
  refine ⟨?_, by decide, by decide, by decide⟩
  intro w c ch h
  refine ⟨?_, ?_, ?_, ?_⟩
  · intro h1
    unfold WorldState.processEntry
    rw [h]
    simp [h1]
  · intro h1 h2
    unfold WorldState.processEntry
    rw [h]
    simp [h1, h2]
  · intro h1 h2 h3
    unfold WorldState.processEntry
    rw [h]
    simp [h1, h2, h3]
  · intro h1 h2 h3
    unfold WorldState.processEntry
    rw [h]
    simp [h1, h2, h3]

/-- A fixture: a single pending chunk queued. -/
def pendingWorld : WorldState :=
  { opts := defaultWorldOptions, hasGenerator := true,
    chunks := [(⟨0, 0, 0⟩, { freshChunkAt ⟨0, 0, 0⟩ with isPending := true })],
    dirtyChunks := [], camChunkName := none, camChunkPos := ⟨0, 0, 0⟩, events := [] }

/--
Witness for C3: processing a pending entry only requeues it at the rear. -/
theorem processEntry_dispatch_witness :
    pendingWorld.processEntry ⟨0, 0, 0⟩ =
      { pendingWorld with dirtyChunks := pendingWorld.dirtyChunks ++ [⟨0, 0, 0⟩] } :=
  (processEntry_dispatch.1 pendingWorld ⟨0, 0, 0⟩
    { freshChunkAt ⟨0, 0, 0⟩ with isPending := true } (by decide)).1 (by decide)

/-! ## Generation requests -/

/--
**C9.** When no Content Generator is configured, a generation request marks
the chunk non-empty (`isEmpty = false`) and pending (`isPending = true`) and
emits a `data-needed` notification carrying that chunk; and when a generator
is configured, `requestChunkData` only invokes the generator — it never emits
`data-needed` (so the signal is emitted only when no generator is
configured).
-/
theorem requestChunkData_data_needed (w : WorldState) (c : Coords3) (ch : Chunk)
    (hg : w.hasGenerator = false) (hch : w.getChunkByCPos c = some ch) :
    ((w.requestChunkData c).getChunkByCPos c =
      some { ch with isEmpty := false, isPending := true }) ∧
    ((w.requestChunkData c).events = w.events ++ [WEvent.dataNeeded c]) ∧
    (∀ (w' : WorldState) (c' : Coords3), w'.hasGenerator = true →
      (w'.requestChunkData c').events = w'.events ++ [WEvent.generateCalled c']) := by
  refine ⟨?_, ?_, ?_⟩
  · unfold WorldState.requestChunkData
    simp only [hg, Bool.not_false, if_true]
    show ((w.updateChunk c _).getChunkByCPos c) = _
    rw [getChunkByCPos_updateChunk_self, hch]
    rfl
  · unfold WorldState.requestChunkData
    simp [hg]
  · intro w' c' hg'
    unfold WorldState.requestChunkData
    simp [hg']

/-- A fixture: a single fresh chunk, no generator configured. -/
def noGenWorld : WorldState :=
  { opts := defaultWorldOptions, hasGenerator := false,
    chunks := [(⟨0, 0, 0⟩, freshChunkAt ⟨0, 0, 0⟩)],
    dirtyChunks := [], camChunkName := none, camChunkPos := ⟨0, 0, 0⟩, events := [] }

/--
Witness for C9: with no generator, requesting data for the stored chunk emits
`data-needed`. -/
theorem requestChunkData_data_needed_witness :
    (noGenWorld.requestChunkData ⟨0, 0, 0⟩).events = [WEvent.dataNeeded ⟨0, 0, 0⟩] :=
  (requestChunkData_data_needed noGenWorld ⟨0, 0, 0⟩ (freshChunkAt ⟨0, 0, 0⟩)
    (by decide) (by decide)).2.1

/-- A fixture: default options, generator configured, one fresh chunk queued. -/
def oneQueuedWorld : WorldState :=
  { opts := defaultWorldOptions, hasGenerator := true,
    chunks := [(⟨0, 0, 0⟩, freshChunkAt ⟨0, 0, 0⟩)],
    dirtyChunks := [⟨0, 0, 0⟩],
    camChunkName := none, camChunkPos := ⟨0, 0, 0⟩, events := [] }

/--
**C10.** With a generator configured, issuing a generation request changes no
chunk state synchronously — the store and the queue are untouched, only the
asynchronous `generate` call is issued — so `isPending` stays `false`; hence a
drain that reaches the same uninitialized chunk twice before its generation
resolves (here: `maxChunkPerFrame = 1` with the chunk requeued and popped
again in the same tick) issues a second generation request instead of holding
the chunk in the pending branch.
-/
theorem requestChunkData_generator_synchronous :
    (∀ (w : WorldState) (c : Coords3), w.hasGenerator = true →
      (w.requestChunkData c).chunks = w.chunks ∧
      (w.requestChunkData c).dirtyChunks = w.dirtyChunks ∧
      (w.requestChunkData c).events = w.events ++ [WEvent.generateCalled c]) ∧
    ((oneQueuedWorld.meshDirtyChunks).events =
      [WEvent.generateCalled ⟨0, 0, 0⟩, WEvent.generateCalled ⟨0, 0, 0⟩]) ∧
    ((oneQueuedWorld.meshDirtyChunks).getChunkByCPos ⟨0, 0, 0⟩ =
      some (freshChunkAt ⟨0, 0, 0⟩)) ∧
    ((freshChunkAt ⟨0, 0, 0⟩).isPending = false) := by
  refine ⟨?_, by decide, by decide, by decide⟩
  intro w c hg
  unfold WorldState.requestChunkData
  simp [hg]

/--
Witness for C10: issuing a generation request on the fixture world leaves the
store untouched. -/
theorem requestChunkData_generator_synchronous_witness :
    (oneQueuedWorld.requestChunkData ⟨0, 0, 0⟩).chunks = oneQueuedWorld.chunks :=
  (requestChunkData_generator_synchronous.1 oneQueuedWorld ⟨0, 0, 0⟩ (by decide)).1

/-! ## Voxel edits and boundary propagation -/

lemma getChunkByCPos_foldl_update_not_mem (L : List Coords3) (w : WorldState)
    (f : Chunk → Chunk) {c : Coords3} (h : c ∉ L) :
    (L.foldl (fun acc x => acc.updateChunk x f) w).getChunkByCPos c = w.getChunkByCPos c := by
  induction L generalizing w with
  | nil => rfl
  | cons x L ih =>
    simp only [List.foldl]
    have hcx : c ≠ x := by
      rintro rfl
      exact h (List.mem_cons_self c L)
    rw [ih _ (fun hm => h (List.mem_cons_of_mem _ hm)),
      getChunkByCPos_updateChunk_ne w hcx f]

lemma getChunkByCPos_foldl_update_nodup_mem (L : List Coords3) (w : WorldState)
    (f : Chunk → Chunk) {c : Coords3} (hnd : L.Nodup) (h : c ∈ L) :
    (L.foldl (fun acc x => acc.updateChunk x f) w).getChunkByCPos c =
      (w.getChunkByCPos c).map f := by
  induction L generalizing w with
  | nil => cases h
  | cons x L ih =>
    simp only [List.foldl]
    rcases List.mem_cons.mp h with rfl | hm
    · rw [getChunkByCPos_foldl_update_not_mem L _ f (List.nodup_cons.mp hnd).1,
        getChunkByCPos_updateChunk_self]
    · have hx : c ≠ x := by
        rintro rfl
        exact (List.nodup_cons.mp hnd).1 hm
      rw [ih _ (List.nodup_cons.mp hnd).2 hm, getChunkByCPos_updateChunk_ne w hx f]

lemma mem_ite_singleton {α : Type} {P : Prop} [Decidable P] {a c : α} :
    (c ∈ if P then [a] else []) ↔ P ∧ c = a := by
  split_ifs with h <;> simp [h]

lemma mem_neighborChunkCoords_iff (w : WorldState) (v : Coords3) (c : Coords3) :
    c ∈ w.neighborChunkCoords v ↔
      ((mapVoxelPosToChunkLocalPos v w.opts.chunkSize).x < (w.opts.chunkPadding : Int) ∧
        c = ⟨(mapVoxelPosToChunkPos v w.opts.chunkSize).x - 1,
             (mapVoxelPosToChunkPos v w.opts.chunkSize).y,
             (mapVoxelPosToChunkPos v w.opts.chunkSize).z⟩) ∨
      ((mapVoxelPosToChunkLocalPos v w.opts.chunkSize).y < (w.opts.chunkPadding : Int) ∧
        c = ⟨(mapVoxelPosToChunkPos v w.opts.chunkSize).x,
             (mapVoxelPosToChunkPos v w.opts.chunkSize).y - 1,
             (mapVoxelPosToChunkPos v w.opts.chunkSize).z⟩) ∨
      ((mapVoxelPosToChunkLocalPos v w.opts.chunkSize).z < (w.opts.chunkPadding : Int) ∧
        c = ⟨(mapVoxelPosToChunkPos v w.opts.chunkSize).x,
             (mapVoxelPosToChunkPos v w.opts.chunkSize).y,
             (mapVoxelPosToChunkPos v w.opts.chunkSize).z - 1⟩) ∨
      ((mapVoxelPosToChunkLocalPos v w.opts.chunkSize).x ≥
          (w.opts.chunkSize : Int) - (w.opts.chunkPadding : Int) ∧
        c = ⟨(mapVoxelPosToChunkPos v w.opts.chunkSize).x + 1,
             (mapVoxelPosToChunkPos v w.opts.chunkSize).y,
             (mapVoxelPosToChunkPos v w.opts.chunkSize).z⟩) ∨
      ((mapVoxelPosToChunkLocalPos v w.opts.chunkSize).y ≥
          (w.opts.chunkSize : Int) - (w.opts.chunkPadding : Int) ∧
        c = ⟨(mapVoxelPosToChunkPos v w.opts.chunkSize).x,
             (mapVoxelPosToChunkPos v w.opts.chunkSize).y + 1,
             (mapVoxelPosToChunkPos v w.opts.chunkSize).z⟩) ∨
      ((mapVoxelPosToChunkLocalPos v w.opts.chunkSize).z ≥
          (w.opts.chunkSize : Int) - (w.opts.chunkPadding : Int) ∧
        c = ⟨(mapVoxelPosToChunkPos v w.opts.chunkSize).x,
             (mapVoxelPosToChunkPos v w.opts.chunkSize).y,
             (mapVoxelPosToChunkPos v w.opts.chunkSize).z + 1⟩) := by
  unfold WorldState.neighborChunkCoords
  simp only [List.mem_append, mem_ite_singleton, or_assoc]

lemma neighborChunkCoords_nodup (w : WorldState) (v : Coords3) :
    (w.neighborChunkCoords v).Nodup := by
  unfold WorldState.neighborChunkCoords
  generalize (mapVoxelPosToChunkLocalPos v w.opts.chunkSize).x = lx
  generalize (mapVoxelPosToChunkLocalPos v w.opts.chunkSize).y = ly
  generalize (mapVoxelPosToChunkLocalPos v w.opts.chunkSize).z = lz
  generalize (mapVoxelPosToChunkPos v w.opts.chunkSize).x = ox
  generalize (mapVoxelPosToChunkPos v w.opts.chunkSize).y = oy
  generalize (mapVoxelPosToChunkPos v w.opts.chunkSize).z = oz
  split_ifs <;>
    simp [List.nodup_append, List.nodup_cons, List.mem_append, List.mem_singleton,
      List.disjoint_singleton, List.Disjoint, Coords3.mk.injEq] <;>
    omega

lemma mem_neighborChunkCoords_ne_owner (w : WorldState) (v : Coords3) {c : Coords3}
    (h : c ∈ w.neighborChunkCoords v) :
    c ≠ mapVoxelPosToChunkPos v w.opts.chunkSize := by
  rw [mem_neighborChunkCoords_iff] at h
  rcases h with ⟨-, rfl⟩ | ⟨-, rfl⟩ | ⟨-, rfl⟩ | ⟨-, rfl⟩ | ⟨-, rfl⟩ | ⟨-, rfl⟩ <;> intro hq
  · have hx : (mapVoxelPosToChunkPos v w.opts.chunkSize).x - 1 =
        (mapVoxelPosToChunkPos v w.opts.chunkSize).x := congrArg Coords3.x hq
    linarith [hx]
  · have hy : (mapVoxelPosToChunkPos v w.opts.chunkSize).y - 1 =
        (mapVoxelPosToChunkPos v w.opts.chunkSize).y := congrArg Coords3.y hq
    linarith [hy]
  · have hz : (mapVoxelPosToChunkPos v w.opts.chunkSize).z - 1 =
        (mapVoxelPosToChunkPos v w.opts.chunkSize).z := congrArg Coords3.z hq
    linarith [hz]
  · have hx : (mapVoxelPosToChunkPos v w.opts.chunkSize).x + 1 =
        (mapVoxelPosToChunkPos v w.opts.chunkSize).x := congrArg Coords3.x hq
    linarith [hx]
  · have hy : (mapVoxelPosToChunkPos v w.opts.chunkSize).y + 1 =
        (mapVoxelPosToChunkPos v w.opts.chunkSize).y := congrArg Coords3.y hq
    linarith [hy]
  · have hz : (mapVoxelPosToChunkPos v w.opts.chunkSize).z + 1 =
        (mapVoxelPosToChunkPos v w.opts.chunkSize).z := congrArg Coords3.z hq
    linarith [hz]

lemma mem_neighborChunkCoords_faceAdjacent (w : WorldState) (v : Coords3) {c : Coords3}
    (h : c ∈ w.neighborChunkCoords v) :
    faceAdjacent c (mapVoxelPosToChunkPos v w.opts.chunkSize) := by
  rw [mem_neighborChunkCoords_iff] at h
  unfold faceAdjacent
  rcases h with ⟨-, rfl⟩ | ⟨-, rfl⟩ | ⟨-, rfl⟩ | ⟨-, rfl⟩ | ⟨-, rfl⟩ | ⟨-, rfl⟩ <;> simp

lemma setVoxel_not_touched (w : WorldState) (v : Coords3) (t : Nat) {c : Coords3}
    (ho : c ≠ mapVoxelPosToChunkPos v w.opts.chunkSize)
    (hn : c ∉ w.neighborChunkCoords v) :
    (w.setVoxel v t).getChunkByCPos c = w.getChunkByCPos c := by
  unfold WorldState.setVoxel
  have hn' : c ∉ w.getNeighborChunksByVoxel v := fun hm =>
    hn (List.mem_of_mem_filter hm)
  rw [getChunkByCPos_foldl_update_not_mem _ _ _ hn']
  cases h : w.getChunkByVoxel v with
  | none => rfl
  | some ch => exact getChunkByCPos_updateChunk_ne w ho _

lemma setVoxel_neighbor_write (w : WorldState) (v : Coords3) (t : Nat) {c : Coords3}
    (hc : c ∈ w.getNeighborChunksByVoxel v) {ch : Chunk}
    (hch : w.getChunkByCPos c = some ch) :
    (w.setVoxel v t).getChunkByCPos c = some (ch.setVoxel v t) := by
  have hnd : (w.getNeighborChunksByVoxel v).Nodup :=
    (neighborChunkCoords_nodup w v).filter _
  have hne : c ≠ mapVoxelPosToChunkPos v w.opts.chunkSize :=
    mem_neighborChunkCoords_ne_owner w v (List.mem_of_mem_filter hc)
  unfold WorldState.setVoxel
  rw [getChunkByCPos_foldl_update_nodup_mem _ _ _ hnd hc]
  cases h : w.getChunkByVoxel v with
  | none => rw [hch]; rfl
  | some ch2 => rw [getChunkByCPos_updateChunk_ne w hne _, hch]; rfl

lemma getVoxel_setVoxel_self (ch : Chunk) (v : Coords3) (t : Nat)
    (h : ch.inPaddedRange v = true) :
    (ch.setVoxel v t).getVoxel v = some t := by
  unfold Chunk.setVoxel Chunk.getVoxel
  simp [h, List.find?]

lemma neighbor_inPaddedRange (w : WorldState) (v : Coords3) {c : Coords3}
    (hc : c ∈ w.neighborChunkCoords v) {ch : Chunk}
    (hcoords : ch.coords = c) (hsize : ch.size = w.opts.chunkSize)
    (hpad : ch.padding = w.opts.chunkPadding) (hs : 0 < w.opts.chunkSize) :
    ch.inPaddedRange v = true := by
  have hs' : (0 : Int) < (w.opts.chunkSize : Int) := by exact_mod_cast hs
  have hsne : (w.opts.chunkSize : Int) ≠ 0 := ne_of_gt hs'
  have hp : (0 : Int) ≤ (w.opts.chunkPadding : Int) := Int.natCast_nonneg _
  have hx0 : 0 ≤ v.x % (w.opts.chunkSize : Int) := Int.emod_nonneg _ hsne
  have hxlt : v.x % (w.opts.chunkSize : Int) < (w.opts.chunkSize : Int) :=
    Int.emod_lt_of_pos _ hs'
  have hy0 : 0 ≤ v.y % (w.opts.chunkSize : Int) := Int.emod_nonneg _ hsne
  have hylt : v.y % (w.opts.chunkSize : Int) < (w.opts.chunkSize : Int) :=
    Int.emod_lt_of_pos _ hs'
  have hz0 : 0 ≤ v.z % (w.opts.chunkSize : Int) := Int.emod_nonneg _ hsne
  have hzlt : v.z % (w.opts.chunkSize : Int) < (w.opts.chunkSize : Int) :=
    Int.emod_lt_of_pos _ hs'
  have ex0 : ∀ a : Int, a - a / (w.opts.chunkSize : Int) * (w.opts.chunkSize : Int)
      = a % (w.opts.chunkSize : Int) := fun a => by
    have hd := Int.ediv_add_emod a (w.opts.chunkSize : Int)
    linear_combination -hd
  have ex1 : ∀ a : Int,
      a - (a / (w.opts.chunkSize : Int) - 1) * (w.opts.chunkSize : Int)
        = a % (w.opts.chunkSize : Int) + (w.opts.chunkSize : Int) := fun a => by
    have hd := Int.ediv_add_emod a (w.opts.chunkSize : Int)
    linear_combination -hd
  have ex2 : ∀ a : Int,
      a - (a / (w.opts.chunkSize : Int) + 1) * (w.opts.chunkSize : Int)
        = a % (w.opts.chunkSize : Int) - (w.opts.chunkSize : Int) := fun a => by
    have hd := Int.ediv_add_emod a (w.opts.chunkSize : Int)
    linear_combination -hd
  rw [mem_neighborChunkCoords_iff] at hc
  rcases hc with ⟨h1, rfl⟩ | ⟨h1, rfl⟩ | ⟨h1, rfl⟩ | ⟨h1, rfl⟩ | ⟨h1, rfl⟩ | ⟨h1, rfl⟩ <;>
    (simp only [mapVoxelPosToChunkLocalPos] at h1
     simp only [Chunk.inPaddedRange, decide_eq_true_eq, hsize, hpad, hcoords,
       mapVoxelPosToChunkPos]
     refine ⟨?_, ?_, ?_, ?_, ?_, ?_⟩ <;>
       linarith [ex0 v.x, ex0 v.y, ex0 v.z, ex1 v.x, ex1 v.y, ex1 v.z,
         ex2 v.x, ex2 v.y, ex2 v.z, h1, hx0, hxlt, hy0, hylt, hz0, hzlt, hp, hs'])

/--
**C6.** Boundary propagation of `setVoxel`: only the owning chunk and the
face-neighbor candidates can be touched; every candidate is face-adjacent to
the owning chunk (diagonal, non-face-sharing neighbors are never written);
every existing candidate receives exactly the same `(voxelCoords, type)`
write; and the candidate set is exactly one neighbor per near-face condition
(so a local position within `padding` of exactly one face yields exactly the
single neighbor across that face, and a corner within `padding` of three
faces yields exactly those three face neighbors).
-/
theorem setVoxel_boundary_propagation (w : WorldState) (v : Coords3) (t : Nat) :
    (∀ c, c ≠ mapVoxelPosToChunkPos v w.opts.chunkSize → c ∉ w.neighborChunkCoords v →
      (w.setVoxel v t).getChunkByCPos c = w.getChunkByCPos c) ∧
    (∀ c, c ∈ w.neighborChunkCoords v →
      faceAdjacent c (mapVoxelPosToChunkPos v w.opts.chunkSize)) ∧
    (∀ c, c ∈ w.neighborChunkCoords v → ∀ ch, w.getChunkByCPos c = some ch →
      (w.setVoxel v t).getChunkByCPos c = some (ch.setVoxel v t)) ∧
    (∀ c, c ∈ w.neighborChunkCoords v ↔
      ((mapVoxelPosToChunkLocalPos v w.opts.chunkSize).x < (w.opts.chunkPadding : Int) ∧
        c = ⟨(mapVoxelPosToChunkPos v w.opts.chunkSize).x - 1,
             (mapVoxelPosToChunkPos v w.opts.chunkSize).y,
             (mapVoxelPosToChunkPos v w.opts.chunkSize).z⟩) ∨
      ((mapVoxelPosToChunkLocalPos v w.opts.chunkSize).y < (w.opts.chunkPadding : Int) ∧
        c = ⟨(mapVoxelPosToChunkPos v w.opts.chunkSize).x,
             (mapVoxelPosToChunkPos v w.opts.chunkSize).y - 1,
             (mapVoxelPosToChunkPos v w.opts.chunkSize).z⟩) ∨
      ((mapVoxelPosToChunkLocalPos v w.opts.chunkSize).z < (w.opts.chunkPadding : Int) ∧
        c = ⟨(mapVoxelPosToChunkPos v w.opts.chunkSize).x,
             (mapVoxelPosToChunkPos v w.opts.chunkSize).y,
             (mapVoxelPosToChunkPos v w.opts.chunkSize).z - 1⟩) ∨
      ((mapVoxelPosToChunkLocalPos v w.opts.chunkSize).x ≥
          (w.opts.chunkSize : Int) - (w.opts.chunkPadding : Int) ∧
        c = ⟨(mapVoxelPosToChunkPos v w.opts.chunkSize).x + 1,
             (mapVoxelPosToChunkPos v w.opts.chunkSize).y,
             (mapVoxelPosToChunkPos v w.opts.chunkSize).z⟩) ∨
      ((mapVoxelPosToChunkLocalPos v w.opts.chunkSize).y ≥
          (w.opts.chunkSize : Int) - (w.opts.chunkPadding : Int) ∧
        c = ⟨(mapVoxelPosToChunkPos v w.opts.chunkSize).x,
             (mapVoxelPosToChunkPos v w.opts.chunkSize).y + 1,
             (mapVoxelPosToChunkPos v w.opts.chunkSize).z⟩) ∨
      ((mapVoxelPosToChunkLocalPos v w.opts.chunkSize).z ≥
          (w.opts.chunkSize : Int) - (w.opts.chunkPadding : Int) ∧
        c = ⟨(mapVoxelPosToChunkPos v w.opts.chunkSize).x,
             (mapVoxelPosToChunkPos v w.opts.chunkSize).y,
             (mapVoxelPosToChunkPos v w.opts.chunkSize).z + 1⟩)) := by
  refine ⟨?_, fun c hc => mem_neighborChunkCoords_faceAdjacent w v hc, ?_,
    fun c => mem_neighborChunkCoords_iff w v c⟩
  · intro c h1 h2
    exact setVoxel_not_touched w v t h1 h2
  · intro c hc ch hch
    have hcf : c ∈ w.getNeighborChunksByVoxel v := by
      unfold WorldState.getNeighborChunksByVoxel
      rw [List.mem_filter]
      refine ⟨hc, ?_⟩
      unfold WorldState.hasChunk
      rw [hch]
      rfl
    exact setVoxel_neighbor_write w v t hcf hch

/-- A fixture: a world with chunks at the origin and at `(-1, 0, 0)`. -/
def twoChunkWorld : WorldState :=
  { opts := defaultWorldOptions, hasGenerator := true,
    chunks := [(⟨0, 0, 0⟩, freshChunkAt ⟨0, 0, 0⟩), (⟨-1, 0, 0⟩, freshChunkAt ⟨-1, 0, 0⟩)],
    dirtyChunks := [], camChunkName := none, camChunkPos := ⟨0, 0, 0⟩, events := [] }

/--
Witness for C6: the voxel `(1, 16, 16)` has local position `(1, 16, 16)` in
chunk `(0, 0, 0)` — within padding (2) of the x-min face only — so its write
propagates to the single face neighbor `(-1, 0, 0)`. -/
theorem setVoxel_boundary_propagation_witness :
    (twoChunkWorld.setVoxel ⟨1, 16, 16⟩ 7).getChunkByCPos ⟨-1, 0, 0⟩ =
      some ((freshChunkAt ⟨-1, 0, 0⟩).setVoxel ⟨1, 16, 16⟩ 7) :=
  (setVoxel_boundary_propagation twoChunkWorld ⟨1, 16, 16⟩ 7).2.2.1 ⟨-1, 0, 0⟩ (by decide)
    (freshChunkAt ⟨-1, 0, 0⟩) (by decide)

/-- A fixture for C5: the store holds only the chunk at `(-1, 0, 0)`; the
chunk owning voxel `(0, 0, 0)` — chunk `(0, 0, 0)` — is absent. -/
def ownerlessWorld : WorldState :=
  { opts := defaultWorldOptions, hasGenerator := true,
    chunks := [(⟨-1, 0, 0⟩, freshChunkAt ⟨-1, 0, 0⟩)],
    dirtyChunks := [], camChunkName := none, camChunkPos := ⟨0, 0, 0⟩, events := [] }

/--
**C5 counterexample.** `setVoxel` is *not* a no-op when the owning chunk is
absent: with no chunk at `(0, 0, 0)` but a neighbor at `(-1, 0, 0)`, writing
voxel `(0, 0, 0)` still propagates into the neighbor's ghost margin — its
stored value at that voxel changes from unset to `5`.
-/
theorem setVoxel_absent_owner_counterexample :
    ownerlessWorld.getChunkByVoxel ⟨0, 0, 0⟩ = none ∧
    ((ownerlessWorld.setVoxel ⟨0, 0, 0⟩ 5).getChunkByCPos ⟨-1, 0, 0⟩).map
        (fun ch => ch.getVoxel ⟨0, 0, 0⟩) = some (some 5) ∧
    (ownerlessWorld.getChunkByCPos ⟨-1, 0, 0⟩).map
        (fun ch => ch.getVoxel ⟨0, 0, 0⟩) = some none := by
  decide

/--
**C5 (amended).** When `setVoxel` resolves no owning chunk, the owning-chunk
write is skipped but boundary propagation still runs: every existing
face-neighbor candidate still receives the write, chunks outside the
candidate set are untouched, and the call is a complete no-op only when
additionally no existing face-neighbor candidate exists.
-/
theorem setVoxel_absent_owner_amended (w : WorldState) (v : Coords3) (t : Nat)
    (h : w.getChunkByVoxel v = none) :
    (w.getNeighborChunksByVoxel v = [] → w.setVoxel v t = w) ∧
    (∀ c, c ∉ w.getNeighborChunksByVoxel v →
      (w.setVoxel v t).getChunkByCPos c = w.getChunkByCPos c) ∧
    (∀ c, c ∈ w.getNeighborChunksByVoxel v → ∀ ch, w.getChunkByCPos c = some ch →
      (w.setVoxel v t).getChunkByCPos c = some (ch.setVoxel v t)) := by
  refine ⟨?_, ?_, ?_⟩
  · intro hn
    unfold WorldState.setVoxel
    rw [h, hn]
    rfl
  · intro c hn
    unfold WorldState.setVoxel
    rw [getChunkByCPos_foldl_update_not_mem _ _ _ hn, h]
  · intro c hc ch hch
    exact setVoxel_neighbor_write w v t hc hch

/-- A fixture: a world with an empty chunk store. -/
def emptyStoreWorld : WorldState :=
  { opts := defaultWorldOptions, hasGenerator := true, chunks := [],
    dirtyChunks := [], camChunkName := none, camChunkPos := ⟨0, 0, 0⟩, events := [] }

/--
Witness for the amended C5: with an empty store (no owner, no neighbors) the
call really is a no-op. -/
theorem setVoxel_absent_owner_amended_witness :
    emptyStoreWorld.setVoxel ⟨0, 0, 0⟩ 5 = emptyStoreWorld :=
  (setVoxel_absent_owner_amended emptyStoreWorld ⟨0, 0, 0⟩ 5 (by decide)).1 (by decide)

/--
**C7.** The post-propagation consistency check of `setVoxel` never fires when
the store is well-formed (each chunk keyed by its own coordinates and carrying
the configured size and padding) and the chunk size is positive: every
neighbor that received the write reads back exactly the written type, so the
mismatch diagnostic branch is unreachable.
-/
theorem setVoxel_consistency_check (w : WorldState) (v : Coords3) (t : Nat)
    (hwf : w.WFChunks) (hs : 0 < w.opts.chunkSize) :
    w.setVoxelMismatches v t = [] := by
  simp only [WorldState.setVoxelMismatches]
  rw [List.filter_eq_nil_iff]
  intro c hc
  have hcand : c ∈ w.neighborChunkCoords v := List.mem_of_mem_filter hc
  have hhas : w.hasChunk c = true := by
    simpa using (List.mem_filter.mp hc).2
  obtain ⟨ch, hch⟩ : ∃ ch, w.getChunkByCPos c = some ch := by
    unfold WorldState.hasChunk at hhas
    cases hh : w.getChunkByCPos c with
    | none => rw [hh] at hhas; cases hhas
    | some ch => exact ⟨ch, rfl⟩
  obtain ⟨hcoords, hsize, hpad⟩ := hwf c ch hch
  have hrange := neighbor_inPaddedRange w v hcand hcoords hsize hpad hs
  have hwrite := setVoxel_neighbor_write w v t hc hch
  simp only [hwrite]
  simp [getVoxel_setVoxel_self ch v t hrange]

lemma twoChunkWorld_WFChunks : twoChunkWorld.WFChunks := by
  intro c ch h
  unfold WorldState.getChunkByCPos at h
  rw [show twoChunkWorld.chunks =
    (⟨0, 0, 0⟩, freshChunkAt ⟨0, 0, 0⟩) :: [(⟨-1, 0, 0⟩, freshChunkAt ⟨-1, 0, 0⟩)] from rfl,
    find?_cons_key] at h
  split_ifs at h with h1
  · obtain rfl := Option.some.inj h
    subst h1
    exact ⟨rfl, rfl, rfl⟩
  · rw [find?_cons_key] at h
    split_ifs at h with h2
    · obtain rfl := Option.some.inj h
      subst h2
      exact ⟨rfl, rfl, rfl⟩
    · simp at h

/--
Witness for C7: on the two-chunk well-formed fixture, writing voxel
`(0, 0, 0)` (which propagates to the existing neighbor `(-1, 0, 0)`) yields no
consistency mismatch. -/
theorem setVoxel_consistency_check_witness :
    twoChunkWorld.setVoxelMismatches ⟨0, 0, 0⟩ 5 = [] :=
  setVoxel_consistency_check twoChunkWorld ⟨0, 0, 0⟩ 5 twoChunkWorld_WFChunks (by decide)

end MineJs
